import Mathlib

/-!
Shallow embedding of the `opentelemetry-aws` crate: the id generator
(`src/id.rs`), the X-Ray propagation codec (`src/format/mod.rs`,
`src/propagation/http_propagator.rs`), the X-Ray segment document model
(`src/service/xray.rs`), and the export conversion (`src/lib.rs`),
together with theorems settling the specification claims.

Machine integers are modelled as `Nat` (`u128` values stay below `2 ^ 128`
by hypothesis where it matters); wall-clock time and randomness are
explicit inputs; Rust panics are modelled by `Option.none` results.
-/

namespace OtelAws

/-! ## Digit and hex machinery shared by the formatting code

Rust's `format!("{:08x}", n)` renders `n` in lowercase hex, zero-padding
on the left to a minimum width of 8 but never truncating.  `hex::encode`
of big-endian bytes of a `u64` is exactly 16 lowercase hex digits.
-/

/-- One character of the POSIX `xdigit` class used by the Rust regexes. -/
def isHexDigit (c : Char) : Bool :=
  ('0' ≤ c && c ≤ '9') || ('a' ≤ c && c ≤ 'f') || ('A' ≤ c && c ≤ 'F')

/-- Numeric value of a hex digit character (0 for non-digits). -/
def hexVal (c : Char) : Nat :=
  if '0' ≤ c && c ≤ '9' then c.toNat - '0'.toNat
  else if 'a' ≤ c && c ≤ 'f' then c.toNat - 'a'.toNat + 10
  else if 'A' ≤ c && c ≤ 'F' then c.toNat - 'A'.toNat + 10
  else 0

/-- Lowercase digit character for a value below 16, as Rust emits. -/
def digitChar (n : Nat) : Char :=
  if n < 10 then Char.ofNat ('0'.toNat + n) else Char.ofNat ('a'.toNat + n - 10)

/-- Fuel-driven base-`b` digit expansion, most significant digit first.
The fuel argument makes the recursion structural, so terms reduce in the
kernel; all call sites use fuel at least the number being rendered. -/
def digitsAux (b : Nat) : Nat → Nat → List Char
  | 0, _ => []
  | fuel + 1, n => if n = 0 then [] else digitsAux b fuel (n / b) ++ [digitChar (n % b)]

/-- Base-`b` rendering of `n` with no padding (`0` renders as one digit). -/
def natDigits (b n : Nat) : List Char :=
  if n = 0 then [digitChar 0] else digitsAux b n n

/-- Lowercase hex rendering with no padding, as Rust `{:x}`. -/
def toHex (n : Nat) : List Char := natDigits 16 n

/-- Decimal rendering, as Rust `Display` / serde-json integer output. -/
def decChars (n : Nat) : List Char := natDigits 10 n

/-- Rust `{:0wx}`: lowercase hex, left zero-padded to a minimum width
`w`, never truncated. -/
def fmtHexMin (w n : Nat) : List Char :=
  List.replicate (w - (toHex n).length) '0' ++ toHex n

/-- Value of a hex digit string, as `from_str_radix(_, 16)` computes it. -/
def hexToNat (l : List Char) : Nat :=
  l.foldl (fun a c => a * 16 + hexVal c) 0

/-- A lowercase hex digit character, the only characters Rust `{:x}`
formatting emits. -/
def isLowerHex (c : Char) : Bool :=
  ('0' ≤ c && c ≤ '9') || ('a' ≤ c && c ≤ 'f')

/-! ## Propagation codec: `src/format/mod.rs`

`api::SpanContext` is modelled with the sampled bit as a `Bool` (the Rust
code only ever stores `TRACE_FLAG_SAMPLED` or `TRACE_FLAGS_UNUSED` in the
flags); the id generator consumed by `parse_header` is modelled by the
`u64` value it would return.
-/

/-- Model of `api::SpanContext`: 128-bit trace id, 64-bit (parent) span
id, sampled flag, remote flag. -/
structure SpanContext where
  traceId : Nat
  spanId : Nat
  sampled : Bool
  isRemote : Bool
deriving DecidableEq

/-- `ROOT_MASK` from `format/mod.rs`: low 96 bits of a `u128`. -/
def ROOT_MASK : Nat := 0xffffffffffffffffffffffff

/-- The literal `Root=1-` opening the header value. -/
def rootLit : List Char := ("Root=1-").data

/-- The literal `;Parent=` separating the parent field. -/
def parentSep : List Char := (";Parent=").data

/-- The literal `;Sampled=` separating the sampled field. -/
def sampledSep : List Char := (";Sampled=").data

/-- `span_context` from `format/mod.rs`: renders
`Root=1-{:08x}-{:024x};Parent={:016x};Sampled={:b}` from the trace id's
high 32 bits, its low 96 bits, the span id, and the sampled bit. -/
def span_contextChars (sc : SpanContext) : List Char :=
  rootLit ++ fmtHexMin 8 (sc.traceId >>> 96) ++ [ '-' ]
    ++ fmtHexMin 24 (sc.traceId &&& ROOT_MASK)
    ++ parentSep ++ fmtHexMin 16 sc.spanId
    ++ sampledSep ++ [if sc.sampled then '1' else '0']

/-- String-level wrapper of `span_contextChars`. -/
def span_context (sc : SpanContext) : String := ⟨span_contextChars sc⟩

/-- Literal match of a pattern at the front of the input, returning the
rest on success. -/
def stripLit : List Char → List Char → Option (List Char)
  | [], s => some s
  | _ :: _, [] => none
  | p :: ps, c :: cs => if p = c then stripLit ps cs else none

/-- Maximal run of hex digits at the front of the input, with the rest:
the only way the greedy `[[:xdigit:]]+` regex groups can match. -/
def spanHex (s : List Char) : List Char × List Char :=
  (s.takeWhile isHexDigit, s.dropWhile isHexDigit)

/-- `u32::from_str_radix(ds, 16)` and friends: fails on an empty string,
a non-hex character, or overflow of the target width `bound`. -/
def fromHexBounded (bound : Nat) (ds : List Char) : Option Nat :=
  if ds ≠ [] ∧ ds.all isHexDigit ∧ hexToNat ds < bound then some (hexToNat ds) else none

/-- `u32::from_str_radix(_, 16)`. -/
def u32_from_hex : List Char → Option Nat := fromHexBounded (2 ^ 32)

/-- `u64::from_str_radix(_, 16)`. -/
def u64_from_hex : List Char → Option Nat := fromHexBounded (2 ^ 64)

/-- `u128::from_str_radix(_, 16)`. -/
def u128_from_hex : List Char → Option Nat := fromHexBounded (2 ^ 128)

/-- The `RE_ROOT` regex `^Root=1-([[:xdigit:]]+)-([[:xdigit:]]+)`
followed by the two `from_str_radix` calls and the recombination
`(timestamp as u128) << 96 | (root_id & ROOT_MASK)` from `parse_header`.
Returns the reassembled trace id, or `none` exactly when the regex fails
to match or a hex field overflows its integer width. -/
def parseRoot (s : List Char) : Option Nat :=
  match stripLit rootLit s with
  | none => none
  | some r1 =>
    match spanHex r1 with
    | (h1, r2) =>
      if h1 = [] then none else
      match r2 with
      | [] => none
      | c :: r3 =>
        if c = '-' then
          match spanHex r3 with
          | (h2, _) =>
            if h2 = [] then none else
            match u32_from_hex h1, u128_from_hex h2 with
            | some ts, some root => some ((ts <<< 96) ||| (root &&& ROOT_MASK))
            | _, _ => none
        else none

/-- The literal `Parent=` looked for by `RE_PARENT`. -/
def parentLit : List Char := ("Parent=").data

/-- Match of `Parent=([[:xdigit:]]+)` anchored at the given position. -/
def matchParentAt (s : List Char) : Option (List Char) :=
  match stripLit parentLit s with
  | none => none
  | some r =>
    match spanHex r with
    | (h, _) => if h = [] then none else some h

/-- `RE_PARENT.captures`: leftmost match of `Parent=([[:xdigit:]]+)` in
the header, returning the greedy capture group. -/
def findParent : List Char → Option (List Char)
  | [] => none
  | c :: rest =>
    match matchParentAt (c :: rest) with
    | some h => some h
    | none => findParent rest

/-- Substring containment, as `Regex::is_match` of a literal pattern. -/
def containsSub (pat : List Char) : List Char → Bool
  | [] => pat.isEmpty
  | c :: rest => pat.isPrefixOf (c :: rest) || containsSub pat rest

/-- The literal pattern of `RE_SAMPLED`. -/
def sampledPat : List Char := ("Sampled=1").data

/-- `parse_header` from `format/mod.rs` over the characters of the
header.  `gen` is the span id the `IdGenerator` would produce.  The
`none` branch of the inner match models the `parent_id.unwrap()` panic;
the `or_else` fallback makes it unreachable. -/
def parse_headerChars (gen : Nat) (s : List Char) : Option SpanContext :=
  match parseRoot s with
  | none => none
  | some tid =>
    match ((findParent s).bind u64_from_hex).orElse (fun _ => some gen) with
    | none => none
    | some p => some ⟨tid, p, containsSub sampledPat s, true⟩

/-- String-level wrapper of `parse_headerChars`. -/
def parse_header (gen : Nat) (header : String) : Option SpanContext :=
  parse_headerChars gen header.data

/-! ## HTTP propagator: `src/propagation/http_propagator.rs` -/

/-- `api::SpanContext::is_valid` of the opentelemetry crate, per the
spec's invariant: valid means non-zero trace id and non-zero span id. -/
def is_valid (sc : SpanContext) : Bool :=
  sc.traceId != 0 && sc.spanId != 0

/-- The header name `X-Amzn-Trace-Id`. -/
def HEADER : String := "X-Amzn-Trace-Id"

/-- The carrier abstraction: a list of header name/value pairs. -/
abbrev Carrier : Type := List (String × String)

/-- `Carrier::set`. -/
def carrierSet (k v : String) (c : Carrier) : Carrier := c ++ [(k, v)]

/-- `Carrier::get`: value of the last entry written under the key. -/
def carrierGet (k : String) (c : Carrier) : Option String :=
  ((List.reverse c).find? (fun p => p.1 == k)).map (fun p => p.2)

/-- `HttpPropagator::inject_context`: a silent no-op on an invalid
context, otherwise one `set` of the formatted header. -/
def inject_context (sc : SpanContext) (c : Carrier) : Carrier :=
  if is_valid sc then carrierSet HEADER (span_context sc) c else c

/-! ## Id generator: `src/id.rs`

`new_trace_id` reads the thread-local rng (a full `u128` sample `rand`)
and the wall clock (`now` seconds), then returns
`(now as u128) << 12 | (id & 0xfff)`; `now` is a `u64` from `as_secs`.
-/

/-- `Generator::new_trace_id`, with the clock and the rng sample as
explicit inputs. -/
def new_trace_id (now rand : Nat) : Nat :=
  ((now % 2 ^ 64) <<< 12) ||| ((rand % 2 ^ 128) &&& 0xfff)

/-- `Generator::new_span_id`, with the rng sample as explicit input. -/
def new_span_id (rand : Nat) : Nat := rand % 2 ^ 64

/-! ## X-Ray segment document model: `src/service/xray.rs`

`SystemTime` is modelled as a signed count of nanoseconds since the unix
epoch; `duration_since(UNIX_EPOCH).unwrap()` panics exactly on negative
values, and `as_secs` truncates to whole seconds.  A panic during
serialization is modelled by an `Option.none` result.  `HashMap`
iteration order is modelled by list order (the claims never serialize a
non-empty map).  Serde emits struct fields in declaration order,
dropping each `skip_serializing_if` field whose condition holds.
-/

/-- The `SDK` constant. -/
def SDK : String := "opentelemetry_aws 1.2.3"

/-- `serialize_time`: whole seconds since epoch as a JSON integer, or a
panic (`none`) when the time is before the epoch. -/
def serialize_time (t : Int) : Option (List Char) :=
  if t < 0 then none else some (decChars (t.toNat / 1000000000))

/-- The formatting inside `serialize_trace_id` for a present value:
`format!("1-{:08x}-{:012x}", x >> 12, x & 0x7ff)`. -/
def serialize_trace_id (x : Nat) : List Char :=
  ("1-").data ++ fmtHexMin 8 (x >>> 12) ++ [ '-' ] ++ fmtHexMin 12 (x &&& 0x7ff)

/-- `hex::encode(x.to_be_bytes())` of a `u64`: exactly 16 zero-padded
lowercase hex digits. -/
def hex16 (x : Nat) : List Char := fmtHexMin 16 x

/-- The serde-json escape of one character inside a JSON string. -/
def jsonEscape (c : Char) : List Char :=
  if c = '"' then ['\\', '"']
  else if c = '\\' then ['\\', '\\']
  else if c.toNat < 32 then
    if c = '\n' then ['\\', 'n']
    else if c = '\r' then ['\\', 'r']
    else if c = '\t' then ['\\', 't']
    else if c.toNat = 8 then ['\\', 'b']
    else if c.toNat = 12 then ['\\', 'f']
    else ['\\', 'u', '0', '0', digitChar (c.toNat / 16), digitChar (c.toNat % 16)]
  else [c]

/-- A JSON string literal, as serde-json renders a Rust string. -/
def jsonStrChars (s : String) : List Char :=
  ['"'] ++ (s.data.map jsonEscape).flatten ++ ['"']

/-- Wrap an already-rendered fragment in JSON string quotes. -/
def jsonQuoted (l : List Char) : List Char := ['"'] ++ l ++ ['"']

/-- A JSON integer, as serde-json renders an `i64`. -/
def intChars (i : Int) : List Char :=
  if i < 0 then '-' :: decChars (-i).toNat else decChars i.toNat

/-- A JSON boolean. -/
def boolChars (b : Bool) : List Char :=
  if b then ("true").data else ("false").data

/-- A compact JSON object from rendered key/value pairs, in order. -/
def renderObj (fl : List (String × List Char)) : List Char :=
  ['\x7b'] ++ (List.intersperse [','] (fl.map (fun p => jsonStrChars p.1 ++ [':'] ++ p.2))).flatten ++ ['\x7d']

/-- A compact JSON array from rendered elements, in order. -/
def renderArr (xs : List (List Char)) : List Char :=
  ['['] ++ (List.intersperse [','] xs).flatten ++ [']']

/-- A `skip_serializing_if = Option::is_none` field: present in the
serialized object only when the option holds a value. -/
def optField {α : Type} (k : String) (o : Option α) (f : α → List Char) :
    List (String × List Char) :=
  match o with
  | none => []
  | some v => [(k, f v)]

/-- `Value` from `xray.rs`: a tagged string-or-number scalar. -/
inductive Value where
  | str : String → Value
  | num : Int → Value
deriving DecidableEq

/-- `Value`'s `Serialize` impl: the bare underlying scalar. -/
def renderValue : Value → List Char
  | .str s => jsonStrChars s
  | .num n => intChars n

/-- A `HashMap<String, Value>` (iteration order modelled by the list). -/
def renderMap (m : List (String × Value)) : List Char :=
  renderObj (m.map (fun p => (p.1, renderValue p.2)))

/-- `Origin` from `xray.rs`: the closed origin enumeration. -/
inductive Origin where
  | EC2Instance
  | ECSContainer
  | ElasticBeanstalk
deriving DecidableEq

/-- `Origin::to_str`: the fixed backend tag of each origin. -/
def Origin.to_str : Origin → String
  | .EC2Instance => "AWS::EC2::Instance"
  | .ECSContainer => "AWS::ECS::Container"
  | .ElasticBeanstalk => "AWS::ElasticBeanstalk::Environment"

/-- `AWSECS` from `xray.rs`. -/
structure AWSECS where
  container : Option String
deriving DecidableEq

/-- `AWSEC2` from `xray.rs`. -/
structure AWSEC2 where
  availability_zone : Option String
  instance_id : Option String
deriving DecidableEq

/-- `AWSElasticBeanstalk` from `xray.rs`. -/
structure AWSElasticBeanstalk where
  deployment_id : Option Nat
  environment_name : Option String
  version_label : Option String
deriving DecidableEq

/-- `AWSXRay` from `xray.rs` (builder default: the `SDK` constant). -/
structure AWSXRay where
  sdk : String
deriving DecidableEq

/-- `AWS` from `xray.rs`. -/
structure AWS where
  account_id : Option String
  ecs : Option AWSECS
  ec2 : Option AWSEC2
  elastic_beanstalk : Option AWSElasticBeanstalk
  xray : AWSXRay
  operation : Option String
  region : Option String
  request_id : Option String
  queue_url : Option String
  table_name : Option String
deriving DecidableEq

/-- Serde rendering of `AWSECS`. -/
def renderAWSECS (x : AWSECS) : List Char :=
  renderObj (optField "container" x.container jsonStrChars)

/-- Serde rendering of `AWSEC2`. -/
def renderAWSEC2 (x : AWSEC2) : List Char :=
  renderObj (optField "availability_zone" x.availability_zone jsonStrChars
    ++ optField "instance_id" x.instance_id jsonStrChars)

/-- Serde rendering of `AWSElasticBeanstalk`. -/
def renderAWSEB (x : AWSElasticBeanstalk) : List Char :=
  renderObj (optField "deployment_id" x.deployment_id decChars
    ++ optField "environment_name" x.environment_name jsonStrChars
    ++ optField "version_label" x.version_label jsonStrChars)

/-- Serde rendering of `AWSXRay`: the `sdk` field is not optional. -/
def renderAWSXRay (x : AWSXRay) : List Char :=
  renderObj [("sdk", jsonStrChars x.sdk)]

/-- Serde rendering of `AWS`: every field except `xray` skips on
absence. -/
def renderAWS (x : AWS) : List Char :=
  renderObj (optField "account_id" x.account_id jsonStrChars
    ++ optField "ecs" x.ecs renderAWSECS
    ++ optField "ec2" x.ec2 renderAWSEC2
    ++ optField "elastic_beanstalk" x.elastic_beanstalk renderAWSEB
    ++ [("xray", renderAWSXRay x.xray)]
    ++ optField "operation" x.operation jsonStrChars
    ++ optField "region" x.region jsonStrChars
    ++ optField "request_id" x.request_id jsonStrChars
    ++ optField "queue_url" x.queue_url jsonStrChars
    ++ optField "table_name" x.table_name jsonStrChars)

/-- `HttpRequest` from `xray.rs`. -/
structure HttpRequest where
  client_ip : Option String
  method : Option String
  traced : Option Bool
  url : Option String
  user_agent : Option String
  x_forwarded_for : Option Bool
deriving DecidableEq

/-- `HttpResponse` from `xray.rs`. -/
structure HttpResponse where
  content_length : Option Int
  status : Option Int
deriving DecidableEq

/-- `Http` from `xray.rs`. -/
structure Http where
  request : Option HttpRequest
  response : Option HttpResponse
deriving DecidableEq

/-- Serde rendering of `HttpRequest`. -/
def renderHttpRequest (x : HttpRequest) : List Char :=
  renderObj (optField "client_ip" x.client_ip jsonStrChars
    ++ optField "method" x.method jsonStrChars
    ++ optField "traced" x.traced boolChars
    ++ optField "url" x.url jsonStrChars
    ++ optField "user_agent" x.user_agent jsonStrChars
    ++ optField "x_forwarded_for" x.x_forwarded_for boolChars)

/-- Serde rendering of `HttpResponse`. -/
def renderHttpResponse (x : HttpResponse) : List Char :=
  renderObj (optField "content_length" x.content_length intChars
    ++ optField "status" x.status intChars)

/-- Serde rendering of `Http`. -/
def renderHttp (x : Http) : List Char :=
  renderObj (optField "request" x.request renderHttpRequest
    ++ optField "response" x.response renderHttpResponse)

/-- `Segment` from `xray.rs`, with fields in declaration order.  Times
are nanoseconds since epoch (signed); `subsegments` nests recursively. -/
inductive Segment where
  | mk
      (annotations : Option (List (String × Value)))
      (aws : Option AWS)
      (end_time : Int)
      (http : Option Http)
      (id : Nat)
      (is_progress : Bool)
      (metadata : Option (List (String × Value)))
      (name : String)
      (origin : Option Origin)
      (precursor_ids : Option (List Nat))
      (service : Option String)
      (user : Option String)
      (parent_id : Option Nat)
      (start_time : Int)
      (subsegments : List Segment)
      (trace_id : Option Nat)
      : Segment

mutual

/-- The serialized key/value field list of a `Segment`, in serde's
declaration order, applying each field's skip rule; `none` models a
panic in `serialize_time`. -/
def renderFields : Segment → Option (List (String × List Char))
  | .mk annotations aws end_time http id is_progress metadata name origin
      precursor_ids service user parent_id start_time subsegments trace_id =>
    match serialize_time end_time, serialize_time start_time, renderSubs subsegments with
    | some et, some st, some subs =>
      some (optField "annotations" annotations renderMap
        ++ optField "aws" aws renderAWS
        ++ [("end_time", et)]
        ++ optField "http" http renderHttp
        ++ [("id", jsonQuoted (hex16 id)),
            ("is_progress", boolChars is_progress)]
        ++ optField "metadata" metadata renderMap
        ++ [("name", jsonStrChars name)]
        ++ optField "origin" origin (fun o => jsonQuoted (Origin.to_str o).data)
        ++ optField "precursor_ids" precursor_ids
            (fun l => renderArr (l.map (fun x => jsonQuoted (hex16 x))))
        ++ optField "service" service jsonStrChars
        ++ optField "user" user jsonStrChars
        ++ [("parent_id", match parent_id with
              | none => ("null").data
              | some p => jsonQuoted (hex16 p))]
        ++ [("start_time", st)]
        ++ (match subsegments with
            | [] => []
            | _ :: _ => [("subsegments", renderArr subs)])
        ++ optField "trace_id" trace_id (fun x => jsonQuoted (serialize_trace_id x)))
    | _, _, _ => none

/-- Serde rendering of a list of subsegments; `none` as soon as one
panics. -/
def renderSubs : List Segment → Option (List (List Char))
  | [] => some []
  | s :: rest =>
    match renderFields s, renderSubs rest with
    | some fl, some rs => some (renderObj fl :: rs)
    | _, _ => none

end

/-- `serde_json::to_string` of a `Segment`: the rendered field list as a
compact JSON object, or `none` on a panic. -/
def renderSegment (s : Segment) : Option (List Char) :=
  (renderFields s).map renderObj

mutual

/-- Every `start_time` and `end_time` in the tree is at or after the
unix epoch. -/
def timesNonneg : Segment → Bool
  | .mk _ _ end_time _ _ _ _ _ _ _ _ _ _ start_time subsegments _ =>
    decide (0 ≤ end_time) && decide (0 ≤ start_time) && timesNonnegList subsegments

/-- `timesNonneg` over a subsegment list. -/
def timesNonnegList : List Segment → Bool
  | [] => true
  | s :: rest => timesNonneg s && timesNonnegList rest

end

/-! ## Export conversion: `src/lib.rs` -/

/-- `Segment::builder().build()`: every optional field defaulted to
absent, `id = 0`, `is_progress = false`, empty name and subsegments, and
both times defaulted to `SystemTime::now()`, the explicit `now` input. -/
def segmentDefault (now : Int) : Segment :=
  ⟨none, none, now, none, 0, false, none, "", none, none, none, none, none, now, [], none⟩

/-- A `Segment` built with only `start_time`, `end_time` and
`origin(EC2Instance)` set, every other builder field left at its
default. -/
def minimalSegment (st et : Int) : Segment :=
  ⟨none, none, et, none, 0, false, none, "", some Origin.EC2Instance, none, none,
    none, none, st, [], none⟩

/-- `to_segments` from `lib.rs`: one serialized default-built `Segment`
per span in the batch; the span data itself is never read, so the batch
element type is arbitrary.  `none` models the `unwrap` panic. -/
def to_segments {α : Type} (now : Int) (batch : List α) : Option (List String) :=
  match batch with
  | [] => some []
  | _ :: rest =>
    match Option.map String.mk (renderSegment (segmentDefault now)),
        to_segments now rest with
    | some doc, some docs => some (doc :: docs)
    | _, _ => none

/-! ## Lemmas about the digit machinery -/

theorem digitsAux_zero (b fuel : Nat) : digitsAux b fuel 0 = [] := by
  cases fuel <;> simp [digitsAux]

theorem hexToNat_append_one (l : List Char) (c : Char) :
    hexToNat (l ++ [c]) = hexToNat l * 16 + hexVal c := by
  simp [hexToNat, List.foldl_append]

theorem hexVal_digitChar : ∀ k : Nat, k < 16 → hexVal (digitChar k) = k := by decide

theorem isLowerHex_digitChar : ∀ k : Nat, k < 16 → isLowerHex (digitChar k) = true := by decide

theorem hexToNat_digitsAux (fuel : Nat) :
    ∀ n : Nat, n ≤ fuel → hexToNat (digitsAux 16 fuel n) = n := by
  induction fuel with
  | zero =>
    intro n h
    have : n = 0 := by omega
    subst this
    simp [digitsAux_zero, hexToNat]
  | succ f ih =>
    intro n h
    by_cases hn : n = 0
    · subst hn; simp [digitsAux_zero, hexToNat]
    · have hdiv : n / 16 ≤ f := by omega
      simp only [digitsAux, hn, if_false]
      rw [hexToNat_append_one, ih (n / 16) hdiv,
        hexVal_digitChar (n % 16) (Nat.mod_lt _ (by norm_num))]
      omega

theorem hexToNat_toHex (n : Nat) : hexToNat (toHex n) = n := by
  unfold toHex natDigits
  by_cases hn : n = 0
  · subst hn
    simp only [if_pos rfl]
    decide
  · simp only [hn, if_false]
    exact hexToNat_digitsAux n n le_rfl

theorem hexToNat_cons_zero (l : List Char) : hexToNat ('0' :: l) = hexToNat l := by
  have h0 : (0 : Nat) * 16 + hexVal '0' = 0 := by decide
  simp only [hexToNat, List.foldl_cons, h0]

theorem hexToNat_replicate_zero (k : Nat) (l : List Char) :
    hexToNat (List.replicate k '0' ++ l) = hexToNat l := by
  induction k with
  | zero => simp
  | succ m ih => rw [List.replicate_succ, List.cons_append, hexToNat_cons_zero, ih]

theorem hexToNat_fmtHexMin (w n : Nat) : hexToNat (fmtHexMin w n) = n := by
  unfold fmtHexMin
  rw [hexToNat_replicate_zero, hexToNat_toHex]

theorem length_digitsAux_le (fuel : Nat) :
    ∀ n w : Nat, n ≤ fuel → n < 16 ^ w → (digitsAux 16 fuel n).length ≤ w := by
  induction fuel with
  | zero =>
    intro n w h _
    have : n = 0 := by omega
    subst this
    simp [digitsAux_zero]
  | succ f ih =>
    intro n w h hw
    by_cases hn : n = 0
    · subst hn; simp [digitsAux_zero]
    · cases w with
      | zero =>
        simp only [pow_zero] at hw
        omega
      | succ w =>
        have hlt : n / 16 < 16 ^ w := by
          rw [Nat.div_lt_iff_lt_mul (by norm_num : (0:Nat) < 16)]
          calc n < 16 ^ (w + 1) := hw
          _ = 16 ^ w * 16 := by rw [pow_succ]
        have := ih (n / 16) w (by omega) hlt
        simp only [digitsAux, hn, if_false, List.length_append, List.length_cons,
          List.length_nil]
        omega

theorem length_toHex_le (n w : Nat) (hw : 0 < w) (h : n < 16 ^ w) :
    (toHex n).length ≤ w := by
  unfold toHex natDigits
  by_cases hn : n = 0
  · subst hn; simpa using hw
  · simp only [hn, if_false]
    exact length_digitsAux_le n n w le_rfl h

theorem length_toHex_pos (n : Nat) : 1 ≤ (toHex n).length := by
  unfold toHex natDigits
  by_cases hn : n = 0
  · subst hn; simp
  · simp only [hn, if_false]
    cases n with
    | zero => exact absurd rfl hn
    | succ m => simp [digitsAux]

theorem length_fmtHexMin_eq_max (w n : Nat) :
    (fmtHexMin w n).length = max w (toHex n).length := by
  unfold fmtHexMin
  simp only [List.length_append, List.length_replicate]
  omega

theorem length_fmtHexMin (w n : Nat) (hw : 0 < w) (h : n < 16 ^ w) :
    (fmtHexMin w n).length = w := by
  rw [length_fmtHexMin_eq_max]
  have := length_toHex_le n w hw h
  omega

theorem fmtHexMin_ne_nil (w n : Nat) : fmtHexMin w n ≠ [] := by
  intro h
  have h1 := length_toHex_pos n
  have h2 := length_fmtHexMin_eq_max w n
  rw [h] at h2
  simp at h2
  omega

theorem mem_digitsAux_lowerHex (fuel : Nat) :
    ∀ n : Nat, ∀ c ∈ digitsAux 16 fuel n, isLowerHex c = true := by
  induction fuel with
  | zero => intro n c hc; simp [digitsAux] at hc
  | succ f ih =>
    intro n c hc
    by_cases hn : n = 0
    · subst hn; rw [digitsAux_zero] at hc; simp at hc
    · simp only [digitsAux, hn, if_false, List.mem_append, List.mem_singleton] at hc
      rcases hc with hc | rfl
      · exact ih _ c hc
      · exact isLowerHex_digitChar _ (Nat.mod_lt _ (by norm_num))

theorem mem_toHex_lowerHex (n : Nat) : ∀ c ∈ toHex n, isLowerHex c = true := by
  unfold toHex natDigits
  by_cases hn : n = 0
  · subst hn
    intro c hc
    simp at hc
    rw [hc]
    decide
  · simp only [hn, if_false]
    exact mem_digitsAux_lowerHex n n

theorem mem_fmtHexMin_lowerHex (w n : Nat) : ∀ c ∈ fmtHexMin w n, isLowerHex c = true := by
  unfold fmtHexMin
  intro c hc
  rcases List.mem_append.mp hc with hc | hc
  · rw [List.eq_of_mem_replicate hc]; decide
  · exact mem_toHex_lowerHex n c hc

theorem isHexDigit_of_isLowerHex (c : Char) (h : isLowerHex c = true) :
    isHexDigit c = true := by
  simp only [isLowerHex, Bool.or_eq_true] at h
  simp only [isHexDigit, Bool.or_eq_true]
  tauto

theorem ne_of_isLowerHex (c d : Char) (h : isLowerHex c = true)
    (hd : isLowerHex d = false) : c ≠ d := by
  intro he
  rw [he, hd] at h
  exact absurd h (by simp)

/-! ## Lemmas about the header scanning functions -/

theorem parentSep_eq : parentSep = ';' :: parentLit := by decide

theorem sampledSep_eq : sampledSep = ';' :: ('S' :: ("ampled=").data) := by decide

theorem sampledPat_eq : sampledPat = 'S' :: ("ampled=1").data := by decide

theorem stripLit_append (p r : List Char) : stripLit p (p ++ r) = some r := by
  induction p with
  | nil => rfl
  | cons c ps ih => simp [stripLit, ih]

theorem spanHex_append :
    ∀ l1 l2 : List Char, (∀ c ∈ l1, isHexDigit c = true) →
    (∀ c, l2.head? = some c → isHexDigit c = false) →
    spanHex (l1 ++ l2) = (l1, l2) := by
  intro l1
  induction l1 with
  | nil =>
    intro l2 _ h2
    cases l2 with
    | nil => rfl
    | cons c cs =>
      have hc := h2 c rfl
      simp [spanHex, List.takeWhile_cons, List.dropWhile_cons, hc]
  | cons c cs ih =>
    intro l2 h1 h2
    have hc := h1 c (List.mem_cons_self c cs)
    have ihh := ih l2 (fun d hd => h1 d (List.mem_cons_of_mem c hd)) h2
    simp only [spanHex, Prod.mk.injEq] at ihh
    simp only [List.cons_append, spanHex, List.takeWhile_cons, List.dropWhile_cons, hc,
      if_true, Prod.mk.injEq]
    exact ⟨by rw [ihh.1], by rw [ihh.2]⟩

theorem matchParentAt_head (c : Char) (s : List Char) (hc : c ≠ 'P') :
    matchParentAt (c :: s) = none := by
  have hs : stripLit parentLit (c :: s) = none := by
    have hP : parentLit = 'P' :: ("arent=").data := by decide
    rw [hP]
    simp only [stripLit]
    exact if_neg (fun h => hc h.symm)
  simp [matchParentAt, hs]

theorem findParent_append :
    ∀ front rest : List Char, (∀ c ∈ front, c ≠ 'P') →
    findParent (front ++ rest) = findParent rest := by
  intro front
  induction front with
  | nil => intro rest _; rfl
  | cons c cs ih =>
    intro rest h
    have hc := h c (List.mem_cons_self c cs)
    rw [List.cons_append]
    simp only [findParent, matchParentAt_head c _ hc]
    exact ih rest (fun d hd => h d (List.mem_cons_of_mem c hd))

theorem findParent_exact (p rest : List Char) (hp : ∀ c ∈ p, isHexDigit c = true)
    (hne : p ≠ []) (hrest : ∀ c, rest.head? = some c → isHexDigit c = false) :
    findParent (parentLit ++ (p ++ rest)) = some p := by
  have hm : matchParentAt (parentLit ++ (p ++ rest)) = some p := by
    simp only [matchParentAt, stripLit_append, spanHex_append p rest hp hrest]
    exact if_neg hne
  have hP : parentLit ++ (p ++ rest) = 'P' :: (("arent=").data ++ (p ++ rest)) := by
    have : parentLit = 'P' :: ("arent=").data := by decide
    rw [this, List.cons_append]
  rw [hP] at hm ⊢
  simp only [findParent, hm]

theorem containsSub_append :
    ∀ (p0 : Char) (ps front rest : List Char), (∀ c ∈ front, c ≠ p0) →
    containsSub (p0 :: ps) (front ++ rest) = containsSub (p0 :: ps) rest := by
  intro p0 ps front
  induction front with
  | nil => intro rest _; rfl
  | cons c cs ih =>
    intro rest h
    have hc := h c (List.mem_cons_self c cs)
    have hbeq : (p0 == c) = false := by
      simp only [beq_eq_false_iff_ne, ne_eq]
      exact fun he => hc he.symm
    rw [List.cons_append]
    simp only [containsSub, List.isPrefixOf, hbeq, Bool.false_and, Bool.false_or]
    exact ih rest (fun d hd => h d (List.mem_cons_of_mem c hd))

/-! ## Recombination of the trace id bits -/

theorem and_rootMask_lt (t : Nat) : t &&& ROOT_MASK < 2 ^ 96 := by
  have h1 : t &&& ROOT_MASK ≤ ROOT_MASK := Nat.and_le_right
  have h2 : ROOT_MASK < 2 ^ 96 := by norm_num [ROOT_MASK]
  omega

theorem shiftRight96_lt (t : Nat) (h : t < 2 ^ 128) : t >>> 96 < 2 ^ 32 := by
  rw [Nat.shiftRight_eq_div_pow]
  rw [Nat.div_lt_iff_lt_mul (by norm_num : (0:Nat) < 2 ^ 96)]
  calc t < 2 ^ 128 := h
  _ = 2 ^ 32 * 2 ^ 96 := by norm_num

theorem recompose (t : Nat) : ((t >>> 96) <<< 96) ||| (t &&& ROOT_MASK) = t := by
  have hm : ROOT_MASK = 2 ^ 96 - 1 := by norm_num [ROOT_MASK]
  rw [hm]
  apply Nat.eq_of_testBit_eq
  intro i
  simp only [Nat.testBit_lor, Nat.testBit_land, Nat.testBit_shiftLeft,
    Nat.testBit_shiftRight, Nat.testBit_two_pow_sub_one]
  by_cases hi : 96 ≤ i
  · have h1 : 96 + (i - 96) = i := by omega
    have h2 : decide (96 ≤ i) = true := by simp [hi]
    have h3 : decide (i < 96) = false := by simp; omega
    rw [h1, h2, h3]
    simp
  · have h2 : decide (96 ≤ i) = false := by simp; omega
    have h3 : decide (i < 96) = true := by simp; omega
    rw [h2, h3]
    simp

/-! ## Evaluation of the parser on a formatted header -/

theorem head_not_hex (c0 : Char) (l : List Char) (h : isHexDigit c0 = false) :
    ∀ c, (c0 :: l).head? = some c → isHexDigit c = false := by
  intro c hc
  rw [List.head?_cons] at hc
  injection hc with hc
  rw [← hc]
  exact h

theorem all_fmtHexMin_hexDigit (w n : Nat) :
    ∀ c ∈ fmtHexMin w n, isHexDigit c = true :=
  fun c hc => isHexDigit_of_isLowerHex c (mem_fmtHexMin_lowerHex w n c hc)

theorem fromHexBounded_fmt (bound w n : Nat) (h : n < bound) :
    fromHexBounded bound (fmtHexMin w n) = some n := by
  unfold fromHexBounded
  rw [if_pos ⟨fmtHexMin_ne_nil w n,
    List.all_eq_true.mpr (all_fmtHexMin_hexDigit w n),
    by rw [hexToNat_fmtHexMin]; exact h⟩]
  rw [hexToNat_fmtHexMin]

theorem and_rootMask_idem (t : Nat) : (t &&& ROOT_MASK) &&& ROOT_MASK = t &&& ROOT_MASK := by
  rw [Nat.and_assoc, Nat.and_self]

theorem findParent_cons_ne (c : Char) (rest : List Char) (hc : c ≠ 'P') :
    findParent (c :: rest) = findParent rest := by
  simp only [findParent, matchParentAt_head c rest hc]

theorem containsSub_cons_ne (p0 : Char) (ps : List Char) (c : Char) (rest : List Char)
    (h : c ≠ p0) : containsSub (p0 :: ps) (c :: rest) = containsSub (p0 :: ps) rest := by
  have hbeq : (p0 == c) = false := by
    simp only [beq_eq_false_iff_ne, ne_eq]
    exact fun he => h he.symm
  simp only [containsSub, List.isPrefixOf, hbeq, Bool.false_and, Bool.false_or]

theorem span_contextChars_eq (sc : SpanContext) :
    span_contextChars sc =
      rootLit ++ (fmtHexMin 8 (sc.traceId >>> 96) ++ ('-' ::
        (fmtHexMin 24 (sc.traceId &&& ROOT_MASK) ++ (';' :: (parentLit ++
          (fmtHexMin 16 sc.spanId ++ (';' :: ('S' :: (("ampled=").data ++
            [if sc.sampled then '1' else '0']))))))))) := by
  unfold span_contextChars
  rw [parentSep_eq, sampledSep_eq]
  simp [List.append_assoc]

theorem parseRoot_span (sc : SpanContext) (h : sc.traceId < 2 ^ 128) :
    parseRoot (span_contextChars sc) = some sc.traceId := by
  rw [span_contextChars_eq]
  have e1 := spanHex_append (fmtHexMin 8 (sc.traceId >>> 96))
    ('-' :: (fmtHexMin 24 (sc.traceId &&& ROOT_MASK) ++ (';' :: (parentLit ++
      (fmtHexMin 16 sc.spanId ++ (';' :: ('S' :: (("ampled=").data ++
        [if sc.sampled then '1' else '0']))))))))
    (all_fmtHexMin_hexDigit 8 _) (head_not_hex '-' _ (by decide))
  have e2 := spanHex_append (fmtHexMin 24 (sc.traceId &&& ROOT_MASK))
    (';' :: (parentLit ++ (fmtHexMin 16 sc.spanId ++ (';' :: ('S' :: (("ampled=").data ++
      [if sc.sampled then '1' else '0']))))))
    (all_fmtHexMin_hexDigit 24 _) (head_not_hex ';' _ (by decide))
  simp only [parseRoot, stripLit_append, e1, e2, if_neg (fmtHexMin_ne_nil 8 _),
    if_neg (fmtHexMin_ne_nil 24 _), if_pos rfl]
  rw [show u32_from_hex = fromHexBounded (2 ^ 32) by rfl,
    show u128_from_hex = fromHexBounded (2 ^ 128) by rfl,
    fromHexBounded_fmt _ _ _ (shiftRight96_lt sc.traceId h),
    fromHexBounded_fmt _ _ _ (lt_trans (and_rootMask_lt sc.traceId) (by norm_num))]
  simp only [if_true]
  rw [and_rootMask_idem, recompose]

theorem findParent_span (sc : SpanContext) :
    findParent (span_contextChars sc) = some (fmtHexMin 16 sc.spanId) := by
  rw [span_contextChars_eq]
  have hex_ne_P : ∀ w n : Nat, ∀ c ∈ fmtHexMin w n, c ≠ 'P' :=
    fun w n c hc => ne_of_isLowerHex c 'P' (mem_fmtHexMin_lowerHex w n c hc) (by decide)
  rw [findParent_append rootLit _ (by decide)]
  rw [findParent_append _ _ (hex_ne_P 8 _)]
  rw [findParent_cons_ne '-' _ (by decide)]
  rw [findParent_append _ _ (hex_ne_P 24 _)]
  rw [findParent_cons_ne ';' _ (by decide)]
  exact findParent_exact _ _ (all_fmtHexMin_hexDigit 16 _) (fmtHexMin_ne_nil 16 _)
    (head_not_hex ';' _ (by decide))

theorem sampled_span (sc : SpanContext) :
    containsSub sampledPat (span_contextChars sc) = sc.sampled := by
  rw [span_contextChars_eq, sampledPat_eq]
  have hex_ne_S : ∀ w n : Nat, ∀ c ∈ fmtHexMin w n, c ≠ 'S' :=
    fun w n c hc => ne_of_isLowerHex c 'S' (mem_fmtHexMin_lowerHex w n c hc) (by decide)
  rw [containsSub_append _ _ rootLit _ (by decide)]
  rw [containsSub_append _ _ _ _ (hex_ne_S 8 _)]
  rw [containsSub_cons_ne _ _ '-' _ (by decide)]
  rw [containsSub_append _ _ _ _ (hex_ne_S 24 _)]
  rw [containsSub_cons_ne _ _ ';' _ (by decide)]
  rw [containsSub_append _ _ parentLit _ (by decide)]
  rw [containsSub_append _ _ _ _ (hex_ne_S 16 _)]
  rw [containsSub_cons_ne _ _ ';' _ (by decide)]
  cases hs : sc.sampled <;> simp only [if_true, if_false] <;> decide

theorem shiftRight_lt_pow (t k w : Nat) (h : t < 2 ^ (k + w)) : t >>> k < 2 ^ w := by
  rw [Nat.shiftRight_eq_div_pow]
  rw [Nat.div_lt_iff_lt_mul (by positivity : (0:Nat) < 2 ^ k)]
  calc t < 2 ^ (k + w) := h
  _ = 2 ^ w * 2 ^ k := by rw [pow_add, Nat.mul_comm]

/-! ## Claim theorems -/

/-- Claim C1: for every valid trace context (non-zero trace id and span
id within their 128/64-bit widths, sampled either true or false),
injecting into an empty carrier writes the formatted header, and
extracting that header reproduces the identical trace id, identical
parent span id, and identical sampled flag, for every generator value. -/
theorem c1_inject_extract_roundtrip (gen : Nat) (sc : SpanContext)
    (hb1 : sc.traceId < 2 ^ 128) (hb2 : sc.spanId < 2 ^ 64)
    (hv1 : sc.traceId ≠ 0) (hv2 : sc.spanId ≠ 0) :
    ∃ sc2 : SpanContext,
      carrierGet HEADER (inject_context sc []) = some (span_context sc) ∧
      parse_header gen (span_context sc) = some sc2 ∧
      sc2.traceId = sc.traceId ∧ sc2.spanId = sc.spanId ∧
      sc2.sampled = sc.sampled := by
  have hvalid : is_valid sc = true := by
    simp [is_valid, hv1, hv2]
  refine ⟨⟨sc.traceId, sc.spanId, sc.sampled, true⟩, ?_, ?_, rfl, rfl, rfl⟩
  · simp [inject_context, hvalid, carrierSet, carrierGet]
  · show parse_headerChars gen (span_contextChars sc) = _
    unfold parse_headerChars
    rw [parseRoot_span sc hb1, findParent_span sc]
    simp only [Option.bind]
    rw [show u64_from_hex = fromHexBounded (2 ^ 64) by rfl, fromHexBounded_fmt _ _ _ hb2]
    simp only [Option.orElse]
    rw [sampled_span sc]

/-- Witness for C1 at a concrete valid sampled context. -/
theorem c1_inject_extract_roundtrip_witness :
    ∃ sc2 : SpanContext,
      carrierGet HEADER (inject_context ⟨1, 7, true, false⟩ []) =
        some (span_context ⟨1, 7, true, false⟩) ∧
      parse_header 99 (span_context ⟨1, 7, true, false⟩) = some sc2 ∧
      sc2.traceId = SpanContext.traceId ⟨1, 7, true, false⟩ ∧
      sc2.spanId = SpanContext.spanId ⟨1, 7, true, false⟩ ∧
      sc2.sampled = SpanContext.sampled ⟨1, 7, true, false⟩ :=
  c1_inject_extract_roundtrip 99 ⟨1, 7, true, false⟩ (by decide) (by decide)
    (by decide) (by decide)

/-- Claim C2 (code-bug evidence): at wall-clock second 1700000000 with
rng sample 0xabc, `new_trace_id` returns `(now << 12) | 0xabc`; its high
32 bits (`>>> 96`) are zero, not the epoch-second count, and the value
differs from the `(now << 96) | random` layout the spec requires. -/
theorem c2_new_trace_id_diverges :
    new_trace_id 1700000000 0xabc = (1700000000 <<< 12) ||| 0xabc ∧
    new_trace_id 1700000000 0xabc ≠ ((1700000000 <<< 96) ||| 0xabc) ∧
    (new_trace_id 1700000000 0xabc) >>> 96 = 0 := by decide

/-- Claim C3: for an invalid context `inject_context` writes nothing;
for a valid context it writes exactly one `X-Amzn-Trace-Id` header whose
value is `Root=1-<8 hex>-<24 hex>;Parent=<16 hex>;Sampled=<0|1>`, every
hex field zero-padded lowercase of the stated fixed width, holding the
trace id's high 32 bits, its low 96 bits, and the span id. -/
theorem c3_inject_format (sc : SpanContext)
    (hb1 : sc.traceId < 2 ^ 128) (hb2 : sc.spanId < 2 ^ 64) :
    (is_valid sc = false → ∀ c : Carrier, inject_context sc c = c) ∧
    (is_valid sc = true →
      ∃ t r p : List Char,
        inject_context sc [] =
          [(HEADER, String.mk (rootLit ++ t ++ ['-'] ++ r ++ parentSep ++ p ++
            sampledSep ++ [if sc.sampled then '1' else '0']))] ∧
        t.length = 8 ∧ r.length = 24 ∧ p.length = 16 ∧
        (∀ c ∈ t ++ (r ++ p), isLowerHex c = true) ∧
        hexToNat t = sc.traceId >>> 96 ∧
        hexToNat r = sc.traceId &&& ROOT_MASK ∧
        hexToNat p = sc.spanId) := by
  constructor
  · intro hinv c
    simp [inject_context, hinv]
  · intro hval
    refine ⟨fmtHexMin 8 (sc.traceId >>> 96), fmtHexMin 24 (sc.traceId &&& ROOT_MASK),
      fmtHexMin 16 sc.spanId, ?_, ?_, ?_, ?_, ?_, hexToNat_fmtHexMin _ _,
      hexToNat_fmtHexMin _ _, hexToNat_fmtHexMin _ _⟩
    · simp [inject_context, hval, carrierSet, span_context, span_contextChars,
        List.append_assoc]
    · refine length_fmtHexMin 8 _ (by norm_num) ?_
      have h1 := shiftRight96_lt sc.traceId hb1
      norm_num at h1 ⊢
      exact h1
    · refine length_fmtHexMin 24 _ (by norm_num) ?_
      have h1 := and_rootMask_lt sc.traceId
      norm_num at h1 ⊢
      exact h1
    · refine length_fmtHexMin 16 _ (by norm_num) ?_
      norm_num at hb2 ⊢
      exact hb2
    · intro c hc
      rcases List.mem_append.mp hc with hc | hc
      · exact mem_fmtHexMin_lowerHex _ _ c hc
      · rcases List.mem_append.mp hc with hc | hc
        · exact mem_fmtHexMin_lowerHex _ _ c hc
        · exact mem_fmtHexMin_lowerHex _ _ c hc

/-- Witness for C3 at a concrete valid context. -/
theorem c3_inject_format_witness :
    (is_valid ⟨1, 7, true, false⟩ = false →
      ∀ c : Carrier, inject_context ⟨1, 7, true, false⟩ c = c) ∧
    (is_valid ⟨1, 7, true, false⟩ = true →
      ∃ t r p : List Char,
        inject_context ⟨1, 7, true, false⟩ [] =
          [(HEADER, String.mk (rootLit ++ t ++ ['-'] ++ r ++ parentSep ++ p ++
            sampledSep ++ [if SpanContext.sampled ⟨1, 7, true, false⟩ then '1' else '0']))] ∧
        t.length = 8 ∧ r.length = 24 ∧ p.length = 16 ∧
        (∀ c ∈ t ++ (r ++ p), isLowerHex c = true) ∧
        hexToNat t = SpanContext.traceId ⟨1, 7, true, false⟩ >>> 96 ∧
        hexToNat r = SpanContext.traceId ⟨1, 7, true, false⟩ &&& ROOT_MASK ∧
        hexToNat p = SpanContext.spanId ⟨1, 7, true, false⟩) :=
  c3_inject_format ⟨1, 7, true, false⟩ (by decide) (by decide)

/-- Claim C4: parsing any header string returns an optional context and
never surfaces an error: the result is `none` exactly when the anchored
Root token fails to match or one of its hex fields fails to parse, as if
the header were absent, for every generator value. -/
theorem c4_parse_never_errors (gen : Nat) (s : String) :
    (parse_header gen s).isSome = (parseRoot s.data).isSome := by
  unfold parse_header parse_headerChars
  cases h : parseRoot s.data with
  | none => rfl
  | some tid =>
    cases hp : (findParent s.data).bind u64_from_hex with
    | none => simp [Option.orElse, hp]
    | some p => simp [Option.orElse, hp]

/-- Claim C5 counterexample: the header `Root=1-0-0` parses (the Root
token matches and both hex fields parse), yet the returned context has
trace id zero and is invalid, refuting the claim that a successful Root
parse always yields a valid context whose trace id is never zero. -/
theorem c5_counterexample :
    parse_header 42 "Root=1-0-0" = some ⟨0, 42, false, true⟩ ∧
    is_valid ⟨0, 42, false, true⟩ = false := by decide

/-- Claim C5 amended: whenever the Root token parses, the extracted
context is marked remote and always carries a parent span id, equal to
the generator's value whenever the Parent token is absent or fails to
parse; its trace id equals the parsed value, which is zero (an invalid
context) when the header's hex fields are zero. -/
theorem c5_amended_root_parse (gen : Nat) (s : String) (tid : Nat)
    (h : parseRoot s.data = some tid) :
    ∃ sc : SpanContext,
      parse_header gen s = some sc ∧ sc.isRemote = true ∧ sc.traceId = tid ∧
      ((findParent s.data).bind u64_from_hex = none → sc.spanId = gen) := by
  unfold parse_header parse_headerChars
  rw [h]
  cases hp : (findParent s.data).bind u64_from_hex with
  | none =>
    refine ⟨⟨tid, gen, containsSub sampledPat s.data, true⟩, ?_, rfl, rfl, fun _ => rfl⟩
    simp [Option.orElse]
  | some p =>
    refine ⟨⟨tid, p, containsSub sampledPat s.data, true⟩, ?_, rfl, rfl, fun hc => ?_⟩
    · simp [Option.orElse]
    · exact Option.noConfusion hc

/-- Witness for the amended C5 at the zero-fields header. -/
theorem c5_amended_root_parse_witness :
    ∃ sc : SpanContext,
      parse_header 42 "Root=1-0-0" = some sc ∧ sc.isRemote = true ∧ sc.traceId = 0 ∧
      ((findParent (String.data "Root=1-0-0")).bind u64_from_hex = none → sc.spanId = 42) :=
  c5_amended_root_parse 42 "Root=1-0-0" 0 (by decide)

/-- Claim C6 counterexample: the header `Root=1-1-1;Sampled=10` carries
the Sampled field with value 10, which the claim says must yield
sampled = false, yet the substring regex `Sampled=1` matches and the
extracted context is sampled. -/
theorem c6_counterexample :
    (parse_header 7 "Root=1-1-1;Sampled=10").map SpanContext.sampled = some true := by
  decide

/-- Claim C6 amended: whenever parsing succeeds, the sampled flag is
true exactly when `Sampled=1` occurs as a substring of the header:
absence of the field or `Sampled=0` alone yield false, but any
occurrence of the substring, as in `Sampled=10`, yields true. -/
theorem c6_amended_sampled (gen : Nat) (s : String) (sc : SpanContext)
    (h : parse_header gen s = some sc) :
    sc.sampled = containsSub sampledPat s.data := by
  unfold parse_header parse_headerChars at h
  cases hr : parseRoot s.data with
  | none => rw [hr] at h; cases h
  | some tid =>
    rw [hr] at h
    cases hp : ((findParent s.data).bind u64_from_hex).orElse (fun _ => some gen) with
    | none => rw [hp] at h; cases h
    | some p =>
      rw [hp] at h
      injection h with h2
      rw [← h2]

/-- Witness for the amended C6 at the `Sampled=10` header. -/
theorem c6_amended_sampled_witness :
    SpanContext.sampled ⟨0x1000000000000000000000001, 7, true, true⟩ =
      containsSub sampledPat (String.data "Root=1-1-1;Sampled=10") :=
  c6_amended_sampled 7 "Root=1-1-1;Sampled=10"
    ⟨0x1000000000000000000000001, 7, true, true⟩ (by decide)

/-- Claim C7 counterexample: at `x = 2 ^ 44` the serializer emits
`1-100000000-000000000000`: the first hex group has 9 digits, so the
whole string has length 24 rather than the length 23 that the claimed
exactly-8-digit first group would force. -/
theorem c7_counterexample :
    String.mk (serialize_trace_id (2 ^ 44)) = "1-100000000-000000000000" ∧
    (serialize_trace_id (2 ^ 44)).length = 24 := by decide

/-- Claim C7 amended: for a present trace id below `2 ^ 44` the Segment
serializer emits `1-<8 hex>-<12 hex>` with the first group the value
shifted right by 12 bits as exactly 8 zero-padded lowercase hex digits
and the second group the value masked to its low 11 bits as exactly 12
zero-padded lowercase hex digits; for larger values the first group
keeps 8 as a minimum width and grows beyond it. -/
theorem c7_amended_trace_id_format (x : Nat) (h : x < 2 ^ 44) :
    ∃ t r : List Char,
      serialize_trace_id x = ("1-").data ++ t ++ ['-'] ++ r ∧
      t.length = 8 ∧ r.length = 12 ∧
      (∀ c ∈ t ++ r, isLowerHex c = true) ∧
      hexToNat t = x >>> 12 ∧ hexToNat r = x &&& 0x7ff := by
  refine ⟨fmtHexMin 8 (x >>> 12), fmtHexMin 12 (x &&& 0x7ff), rfl, ?_, ?_, ?_,
    hexToNat_fmtHexMin _ _, hexToNat_fmtHexMin _ _⟩
  · refine length_fmtHexMin 8 _ (by norm_num) ?_
    have h1 : x >>> 12 < 2 ^ 32 := shiftRight_lt_pow x 12 32 (by norm_num at h ⊢; exact h)
    norm_num at h1 ⊢
    exact h1
  · refine length_fmtHexMin 12 _ (by norm_num) ?_
    have h1 : x &&& 0x7ff ≤ 0x7ff := Nat.and_le_right
    have h2 : (0x7ff : Nat) < 16 ^ 12 := by norm_num
    omega
  · intro c hc
    rcases List.mem_append.mp hc with hc | hc
    · exact mem_fmtHexMin_lowerHex _ _ c hc
    · exact mem_fmtHexMin_lowerHex _ _ c hc

/-- Witness for the amended C7 at the repository test value `456 << 12`. -/
theorem c7_amended_trace_id_format_witness :
    ∃ t r : List Char,
      serialize_trace_id 0x1c8000 = ("1-").data ++ t ++ ['-'] ++ r ∧
      t.length = 8 ∧ r.length = 12 ∧
      (∀ c ∈ t ++ r, isLowerHex c = true) ∧
      hexToNat t = 0x1c8000 >>> 12 ∧ hexToNat r = 0x1c8000 &&& 0x7ff :=
  c7_amended_trace_id_format 0x1c8000 (by decide)

/-! ## Totality of segment serialization for epoch-or-later times -/

theorem serialize_time_nonneg (t : Int) (h : 0 ≤ t) :
    serialize_time t = some (decChars (t.toNat / 1000000000)) := by
  unfold serialize_time
  rw [if_neg (by omega)]

theorem renderSubs_total_of (l : List Segment)
    (ih : ∀ s ∈ l, timesNonneg s = true → (renderFields s).isSome = true)
    (h : timesNonnegList l = true) : (renderSubs l).isSome = true := by
  induction l with
  | nil => rfl
  | cons s rest ihl =>
    rw [timesNonnegList, Bool.and_eq_true] at h
    have h1 := ih s (List.mem_cons_self s rest) h.1
    have h2 := ihl (fun x hx hh => ih x (List.mem_cons_of_mem s hx) hh) h.2
    simp only [renderSubs]
    cases hf : renderFields s with
    | none => rw [hf] at h1; exact absurd h1 (by simp)
    | some fl =>
      cases hr : renderSubs rest with
      | none => rw [hr] at h2; exact absurd h2 (by simp)
      | some rs => rfl

theorem renderFields_total_k :
    ∀ k : Nat, ∀ s : Segment, sizeOf s < k → timesNonneg s = true →
      (renderFields s).isSome = true := by
  intro k
  induction k with
  | zero => intro s hs _; omega
  | succ k ih =>
    intro s hs ht
    rcases s with ⟨a, aws, e, hh, i, ip, m, n, o, pi, sv, u, p, st, subs, t⟩
    rw [timesNonneg, Bool.and_eq_true, Bool.and_eq_true] at ht
    obtain ⟨⟨he, hst⟩, hsubs⟩ := ht
    have hsize : ∀ x ∈ subs, sizeOf x < k := by
      intro x hx
      have h1 := List.sizeOf_lt_of_mem hx
      have h2 : sizeOf subs <
          sizeOf (Segment.mk a aws e hh i ip m n o pi sv u p st subs t) := by
        simp only [Segment.mk.sizeOf_spec]
        omega
      omega
    have hrs := renderSubs_total_of subs (fun x hx hh2 => ih x (hsize x hx) hh2) hsubs
    simp only [renderFields]
    rw [serialize_time_nonneg e (of_decide_eq_true he),
      serialize_time_nonneg st (of_decide_eq_true hst)]
    cases hr : renderSubs subs with
    | none => rw [hr] at hrs; exact absurd hrs (by simp)
    | some rs => rfl

theorem to_segments_eval {α : Type} (now : Int) (doc : String)
    (hdoc : (renderSegment (segmentDefault now)).map String.mk = some doc) :
    ∀ l : List α, to_segments now l = some (List.replicate l.length doc) := by
  intro l
  induction l with
  | nil => rfl
  | cons x xs ih =>
    simp only [to_segments, hdoc, ih, List.length_cons, List.replicate_succ]

/-- Claim C8: a Segment built with only `start_time`, `end_time` and
`origin(EC2Instance)` set serializes to a JSON object with no `aws`,
`service`, `user`, `metadata`, `annotations`, `http`, `subsegments` or
`trace_id` keys, while `parent_id` is present with value `null` (not
omitted) and `id` is present with the 16-zero hex string. -/
theorem c8_minimal_segment_fields (st et : Int) (hst : 0 ≤ st) (het : 0 ≤ et) :
    ∃ fl : List (String × List Char),
      renderFields (minimalSegment st et) = some fl ∧
      fl.map Prod.fst =
        ["end_time", "id", "is_progress", "name", "origin", "parent_id", "start_time"] ∧
      (∀ k ∈ (["aws", "service", "user", "metadata", "annotations", "http",
        "subsegments", "trace_id"] : List String), k ∉ fl.map Prod.fst) ∧
      ("parent_id", ("null").data) ∈ fl ∧
      ("id", ("\"0000000000000000\"").data) ∈ fl := by
  have h1 : jsonQuoted (hex16 0) = ("\"0000000000000000\"").data := by decide
  have h2 : boolChars false = ("false").data := by decide
  have h3 : jsonStrChars "" = ("\"\"").data := by decide
  have h4 : jsonQuoted ((Origin.to_str Origin.EC2Instance)).data =
      ("\"AWS::EC2::Instance\"").data := by decide
  refine ⟨[("end_time", decChars (et.toNat / 1000000000)),
    ("id", ("\"0000000000000000\"").data),
    ("is_progress", ("false").data),
    ("name", ("\"\"").data),
    ("origin", ("\"AWS::EC2::Instance\"").data),
    ("parent_id", ("null").data),
    ("start_time", decChars (st.toNat / 1000000000))], ?_, rfl, ?_, by simp, by simp⟩
  · unfold minimalSegment
    simp only [renderFields]
    rw [serialize_time_nonneg et het, serialize_time_nonneg st hst]
    simp only [renderSubs, optField, h1, h2, h3, h4, List.nil_append, List.append_nil,
      List.cons_append, List.singleton_append]
  · show ∀ k ∈ (["aws", "service", "user", "metadata", "annotations", "http",
      "subsegments", "trace_id"] : List String),
      k ∉ (["end_time", "id", "is_progress", "name", "origin", "parent_id",
        "start_time"] : List String)
    decide

/-- Witness for C8 at the repository test times 1s and 2s. -/
theorem c8_minimal_segment_fields_witness :
    ∃ fl : List (String × List Char),
      renderFields (minimalSegment 1000000000 2000000000) = some fl ∧
      fl.map Prod.fst =
        ["end_time", "id", "is_progress", "name", "origin", "parent_id", "start_time"] ∧
      (∀ k ∈ (["aws", "service", "user", "metadata", "annotations", "http",
        "subsegments", "trace_id"] : List String), k ∉ fl.map Prod.fst) ∧
      ("parent_id", ("null").data) ∈ fl ∧
      ("id", ("\"0000000000000000\"").data) ∈ fl :=
  c8_minimal_segment_fields 1000000000 2000000000 (by decide) (by decide)

/-- Claim C9 counterexample: a builder-constructible Segment whose
`start_time` is one nanosecond before the unix epoch (all other fields
defaulted) panics in `serialize_time`, so serialization does not return
a byte string for every arbitrary `SystemTime`. -/
theorem c9_counterexample :
    renderSegment (Segment.mk none none 0 none 0 false none "" none none none
      none none (-1) [] none) = none := by decide

/-- Claim C9 amended: serialization of a well-formed Segment tree never
fails provided every `start_time` and `end_time` in the tree is at or
after the unix epoch; for pre-epoch times the `duration_since` unwrap in
`serialize_time` panics, so the restriction is necessary. -/
theorem c9_amended_serialization_total (s : Segment) (h : timesNonneg s = true) :
    ∃ out : List Char, renderSegment s = some out := by
  have htot := renderFields_total_k (sizeOf s + 1) s (by omega) h
  unfold renderSegment
  cases hf : renderFields s with
  | none => rw [hf] at htot; exact absurd htot (by simp)
  | some fl => exact ⟨renderObj fl, rfl⟩

/-- Witness for the amended C9. -/
theorem c9_amended_serialization_total_witness :
    ∃ out : List Char, renderSegment (minimalSegment 0 0) = some out :=
  c9_amended_serialization_total (minimalSegment 0 0) (by decide)

/-- Claim C10: converting a batch produces exactly one document per
span, each document is the serialization of a default-built empty
Segment at the conversion instant, and the documents do not depend on
the spans' contents: two batches of equal length, over arbitrary element
types, convert to the identical document list. -/
theorem c10_to_segments_uniform {α β : Type} (now : Int) (hnow : 0 ≤ now)
    (b1 : List α) (b2 : List β) (hlen : b1.length = b2.length) :
    ∃ docs : List String,
      to_segments now b1 = some docs ∧ to_segments now b2 = some docs ∧
      docs.length = b1.length ∧
      ∀ d ∈ docs, (renderSegment (segmentDefault now)).map String.mk = some d := by
  have htimes : timesNonneg (segmentDefault now) = true := by
    simp only [segmentDefault, timesNonneg, timesNonnegList, Bool.and_true,
      Bool.and_eq_true, decide_eq_true_eq]
    exact ⟨hnow, hnow⟩
  have h1 := renderFields_total_k (sizeOf (segmentDefault now) + 1)
    (segmentDefault now) (by omega) htimes
  obtain ⟨fl, hfl⟩ : ∃ fl, renderFields (segmentDefault now) = some fl := by
    cases hf : renderFields (segmentDefault now) with
    | none => rw [hf] at h1; exact absurd h1 (by simp)
    | some fl => exact ⟨fl, rfl⟩
  have hdoc : (renderSegment (segmentDefault now)).map String.mk =
      some (String.mk (renderObj fl)) := by
    unfold renderSegment
    rw [hfl]
    rfl
  refine ⟨List.replicate b1.length (String.mk (renderObj fl)),
    to_segments_eval now _ hdoc b1, ?_, by simp, ?_⟩
  · rw [to_segments_eval now _ hdoc b2, hlen]
  · intro d hd
    rw [List.eq_of_mem_replicate hd]
    exact hdoc

/-- Witness for C10 with two equal-length batches of different element
types. -/
theorem c10_to_segments_uniform_witness :
    ∃ docs : List String,
      to_segments 0 [0, 1] = some docs ∧ to_segments 0 [true, false] = some docs ∧
      docs.length = ([0, 1] : List Nat).length ∧
      ∀ d ∈ docs, (renderSegment (segmentDefault 0)).map String.mk = some d :=
  c10_to_segments_uniform 0 (by decide) [0, 1] [true, false] (by decide)

end OtelAws
